import Mathlib

/-!
Verification of the RepliMatch matching engine (`src/utils/ai_matcher.py`)
and the match store (`src/utils/database.py`) against its specification.

The Python code is shallowly embedded: profiles are records with optional
fields (a missing dictionary key is `none`, and `dict.get(k, d)` is
`Option.getD`), numeric scores are rationals, and the network/parse stage
of the Gemini call is abstracted by a `GeminiOutcome` value that records
whether the call failed (exception or missing model, both of which the
Python code maps to the fallback path) or produced a parsed rankings list.
-/

/-- A user profile as passed around the Python code: a dictionary whose
fields may be absent.  `none` models an absent key; `dict.get(k, [])`
becomes `Option.getD`. -/
structure UserProfile where
  id : Nat
  username : Option String := none
  skills : Option (List String) := none
  interests : Option (List String) := none
  tech_stack : Option (List String) := none
  bio : Option String := none
  profile_photo : Option String := none
deriving Repr, DecidableEq

/-- The match dictionary built by `find_matches_with_gemini` / `find_matches`. -/
structure MatchResult where
  user_id : Nat
  username : String
  score : ℚ
  skills : List String
  interests : List String
  tech_stack : List String
  bio : String
  match_reason : String
  profile_photo : Option String
deriving Repr, DecidableEq

/-- One entry `[index, score, "reason"]` of the parsed AI rankings array.
The index is an integer (the code explicitly guards `0 <= idx`). -/
structure AIRankItem where
  idx : Int
  score : ℚ
  reason : String
deriving Repr, DecidableEq

/-- Outcome of the external Gemini stage, up to parsing.
`noModel` models `self.model is None`; `failure` models any exception
during the call or parse (the `except` branch returns `None`);
`response rankings` models a successfully parsed JSON array. -/
inductive GeminiOutcome where
  | noModel
  | failure
  | response (rankings : List AIRankItem)
deriving Repr, DecidableEq

/-- `calculate_jaccard_similarity` from `ai_matcher.py`: returns `0.0` when
either input list is empty (`if not set1 or not set2`), otherwise converts
both lists to sets and returns `|intersection| / |union|` (guarded by
`if union > 0`). -/
def calculate_jaccard_similarity (set1 set2 : List String) : ℚ :=
  if set1 = [] ∨ set2 = [] then 0
  else
    let s1 := set1.toFinset
    let s2 := set2.toFinset
    let intersection := (s1 ∩ s2).card
    let union := (s1 ∪ s2).card
    if union > 0 then (intersection : ℚ) / (union : ℚ) else 0

/-- `calculate_match_score_fallback` from `ai_matcher.py`:
`0.4 * skills_score + 0.4 * interests_score + 0.2 * tech_score`,
with each absent field read as `[]` via `dict.get`. -/
def calculate_match_score_fallback (user1 user2 : UserProfile) : ℚ :=
  let skills_score := calculate_jaccard_similarity
    (user1.skills.getD []) (user2.skills.getD [])
  let interests_score := calculate_jaccard_similarity
    (user1.interests.getD []) (user2.interests.getD [])
  let tech_score := calculate_jaccard_similarity
    (user1.tech_stack.getD []) (user2.tech_stack.getD [])
  0.4 * skills_score + 0.4 * interests_score + 0.2 * tech_score

/-- The match dictionary `find_matches_with_gemini` appends for an in-range
ranked candidate: the AI score is normalised by `score / 100.0`. -/
def gemini_match (candidate : UserProfile) (item : AIRankItem) : MatchResult :=
  { user_id := candidate.id
    username := candidate.username.getD "Unknown"
    score := item.score / 100
    skills := candidate.skills.getD []
    interests := candidate.interests.getD []
    tech_stack := candidate.tech_stack.getD []
    bio := candidate.bio.getD ""
    match_reason := item.reason
    profile_photo := candidate.profile_photo }

/-- The result-building loop of `find_matches_with_gemini` (lines 104-121):
iterate over `rankings[:top_n]`, keep an entry only when
`0 <= idx < len(all_users)`, and look the candidate up in the pool.
Entries with an out-of-range index are skipped individually. -/
def find_matches_with_gemini (all_users : List UserProfile) (top_n : Nat)
    (rankings : List AIRankItem) : List MatchResult :=
  (rankings.take top_n).filterMap fun item =>
    if 0 ≤ item.idx ∧ item.idx < (all_users.length : Int) then
      (all_users.get? item.idx.toNat).map fun candidate => gemini_match candidate item
    else none

/-- The match dictionary the fallback loop of `find_matches` appends for a
candidate. -/
def fallback_match (user_profile other_user : UserProfile) : MatchResult :=
  { user_id := other_user.id
    username := other_user.username.getD "Unknown"
    score := calculate_match_score_fallback user_profile other_user
    skills := other_user.skills.getD []
    interests := other_user.interests.getD []
    tech_stack := other_user.tech_stack.getD []
    bio := other_user.bio.getD ""
    match_reason := "Matched based on skill and interest overlap"
    profile_photo := other_user.profile_photo }

/-- The comparator realised by Python's
`matches.sort(key=lambda x: x['score'], reverse=True)`: a stable sort that
keeps `a` before `b` exactly when `a`'s score is not below `b`'s. -/
def score_desc (a b : MatchResult) : Bool :=
  decide (b.score ≤ a.score)

/-- The fallback branch of `find_matches` before truncation: score every
candidate in pool order, then stably sort descending by score.  Python's
`list.sort` is a stable sort; with `reverse=True` ties still keep their
input order, which is exactly `mergeSort` with `score_desc`. -/
def fallback_sorted (user_profile : UserProfile) (all_users : List UserProfile) :
    List MatchResult :=
  (all_users.map (fallback_match user_profile)).mergeSort score_desc

/-- `find_matches` from `ai_matcher.py`: when a model is configured, try the
Gemini path first, and keep its result only when it is truthy (a non-empty
list); on `None` (exception), an empty list, or no model, run the fallback
loop, sort descending by score and return the first `top_n`. -/
def find_matches (user_profile : UserProfile) (all_users : List UserProfile)
    (top_n : Nat) (outcome : GeminiOutcome) : List MatchResult :=
  match outcome with
  | .response rankings =>
    let gemini_matches := find_matches_with_gemini all_users top_n rankings
    if gemini_matches = [] then (fallback_sorted user_profile all_users).take top_n
    else gemini_matches
  | _ => (fallback_sorted user_profile all_users).take top_n

/-- A row of the `matches` table (`user_id`, `matched_user_id`,
`match_score`); the autoincrement id and timestamp do not matter to the
claims and are omitted. -/
structure MatchRow where
  user_id : Nat
  matched_user_id : Nat
  match_score : ℚ
deriving Repr, DecidableEq

/-- The row `Database.save_matches` inserts for one match of `user_id`. -/
def match_row (user_id : Nat) (m : MatchResult) : MatchRow :=
  { user_id := user_id, matched_user_id := m.user_id, match_score := m.score }

/-- `Database.save_matches` from `database.py`, on the `matches` table
viewed as a list of rows: first `DELETE FROM matches WHERE user_id = ?`,
then insert one row per element of `matches`. -/
def save_matches (table : List MatchRow) (user_id : Nat)
    (new_matches : List MatchResult) : List MatchRow :=
  (table.filter fun r => ¬ r.user_id = user_id) ++ new_matches.map (match_row user_id)

/-- Modelled from the spec (§4.1): set-overlap similarity for a pair of
string sets: `0.0` if either set empty; else `|intersection| / |union|`
(Jaccard).  Used to compare the code's list-based function against the
spec's set-based formula. -/
def setOverlap_spec (A B : Finset String) : ℚ :=
  if A = ∅ ∨ B = ∅ then 0 else ((A ∩ B).card : ℚ) / ((A ∪ B).card : ℚ)

/-- Modelled from the spec (§4.1): the composite score
`0.4 × skills + 0.3 × interests + 0.2 × tech + 0.1 × bio-text-similarity`,
where the bio similarity is `0.0` if either bio is empty and is otherwise
an unspecified normalised lexical measure, abstracted by `bioSim`. -/
def composite_score_spec (bioSim : String → String → ℚ)
    (u1 u2 : UserProfile) : ℚ :=
  0.4 * setOverlap_spec (u1.skills.getD []).toFinset (u2.skills.getD []).toFinset +
  0.3 * setOverlap_spec (u1.interests.getD []).toFinset (u2.interests.getD []).toFinset +
  0.2 * setOverlap_spec (u1.tech_stack.getD []).toFinset (u2.tech_stack.getD []).toFinset +
  0.1 * (if u1.bio.getD "" = "" ∨ u2.bio.getD "" = "" then 0
         else bioSim (u1.bio.getD "") (u2.bio.getD ""))

theorem jaccard_eq_setOverlap (l1 l2 : List String) :
    calculate_jaccard_similarity l1 l2 = setOverlap_spec l1.toFinset l2.toFinset := by
  unfold calculate_jaccard_similarity setOverlap_spec
  by_cases h : l1 = [] ∨ l2 = []
  · rw [if_pos h, if_pos (by simpa [List.toFinset_eq_empty_iff] using h)]
  · push_neg at h
    obtain ⟨a, ha⟩ := List.exists_mem_of_ne_nil l1 h.1
    have hpos : 0 < (l1.toFinset ∪ l2.toFinset).card :=
      Finset.card_pos.mpr ⟨a, Finset.mem_union_left _ (List.mem_toFinset.mpr ha)⟩
    have hne2 : ¬ (l1.toFinset = ∅ ∨ l2.toFinset = ∅) := by
      rw [List.toFinset_eq_empty_iff, List.toFinset_eq_empty_iff]
      exact not_or.mpr h
    rw [if_neg (not_or.mpr h), if_neg hne2]
    dsimp only
    rw [if_pos hpos]

theorem jaccard_nonneg (l1 l2 : List String) :
    0 ≤ calculate_jaccard_similarity l1 l2 := by
  unfold calculate_jaccard_similarity
  split
  · exact le_refl 0
  · dsimp only
    split
    · positivity
    · exact le_refl 0

theorem jaccard_le_one (l1 l2 : List String) :
    calculate_jaccard_similarity l1 l2 ≤ 1 := by
  unfold calculate_jaccard_similarity
  split
  · norm_num
  · dsimp only
    split
    · rename_i hne hu
      rw [div_le_one (by exact_mod_cast hu)]
      exact_mod_cast Finset.card_le_card Finset.inter_subset_union
    · norm_num

/-- Concrete subject profile used by witnesses and counterexamples. -/
def p0 : UserProfile :=
  { id := 100 }

/-- Concrete candidate with no profile fields. -/
def c0 : UserProfile :=
  { id := 1 }

/-- Second concrete candidate with no profile fields. -/
def c1 : UserProfile :=
  { id := 2 }

/-- Concrete profile with one skill, one interest and one tech-stack item
and no bio. -/
def uX : UserProfile :=
  { id := 3, skills := some ["a"], interests := some ["b"], tech_stack := some ["c"] }

/-- C7: `setOverlap(A, A) = 1` for every non-empty A, `setOverlap(A, B) = 0`
whenever either argument is empty, and for non-empty A and B it equals
`|A ∩ B| / |A ∪ B|`. -/
theorem setOverlap_properties (A B : List String) :
    (A ≠ [] → calculate_jaccard_similarity A A = 1) ∧
    (A = [] ∨ B = [] → calculate_jaccard_similarity A B = 0) ∧
    (A ≠ [] → B ≠ [] →
      calculate_jaccard_similarity A B =
        ((A.toFinset ∩ B.toFinset).card : ℚ) / ((A.toFinset ∪ B.toFinset).card : ℚ)) := by
  refine ⟨?_, ?_, ?_⟩
  · intro hA
    obtain ⟨a, ha⟩ := List.exists_mem_of_ne_nil A hA
    have hpos : 0 < A.toFinset.card := Finset.card_pos.mpr ⟨a, List.mem_toFinset.mpr ha⟩
    unfold calculate_jaccard_similarity
    rw [if_neg (not_or.mpr ⟨hA, hA⟩)]
    dsimp only
    rw [Finset.inter_self, Finset.union_self, if_pos hpos]
    exact div_self (by exact_mod_cast hpos.ne')
  · intro h
    unfold calculate_jaccard_similarity
    rw [if_pos h]
  · intro hA hB
    rw [jaccard_eq_setOverlap]
    unfold setOverlap_spec
    rw [if_neg (by
      rw [List.toFinset_eq_empty_iff, List.toFinset_eq_empty_iff]
      exact not_or.mpr ⟨hA, hB⟩)]

/-- Witness for C7 at concrete one-element lists. -/
theorem setOverlap_properties_witness :
    calculate_jaccard_similarity ["a"] ["a"] = 1 ∧
    calculate_jaccard_similarity [] ["a"] = 0 ∧
    calculate_jaccard_similarity ["a"] ["b"] =
      (((["a"] : List String).toFinset ∩ (["b"] : List String).toFinset).card : ℚ) /
        (((["a"] : List String).toFinset ∪ (["b"] : List String).toFinset).card : ℚ) :=
  ⟨(setOverlap_properties ["a"] ["a"]).1 (by decide),
   (setOverlap_properties [] ["a"]).2.1 (Or.inl rfl),
   (setOverlap_properties ["a"] ["b"]).2.2 (by decide) (by decide)⟩

/-- C10: the set-overlap similarity depends only on the set of elements of
each input list, so reordering or duplicating elements never changes it. -/
theorem jaccard_depends_only_on_elements (l1 l2 l1' l2' : List String)
    (h1 : l1.toFinset = l1'.toFinset) (h2 : l2.toFinset = l2'.toFinset) :
    calculate_jaccard_similarity l1 l2 = calculate_jaccard_similarity l1' l2' := by
  rw [jaccard_eq_setOverlap, jaccard_eq_setOverlap, h1, h2]

/-- Witness for C10: a reordered and duplicated pair of lists gets the same
similarity. -/
theorem jaccard_depends_only_on_elements_witness :
    calculate_jaccard_similarity ["a", "a", "b"] ["c"] =
      calculate_jaccard_similarity ["b", "a"] ["c", "c"] :=
  jaccard_depends_only_on_elements ["a", "a", "b"] ["c"] ["b", "a"] ["c", "c"]
    (by decide) (by decide)

/-- A profile with every similarity field made explicit: each absent
skills/interests/tech_stack key replaced by the empty collection it is read
as (a present key is left unchanged, since `(some l).getD [] = l`). -/
def fill_profile_fields (u : UserProfile) : UserProfile :=
  { u with
    skills := some (u.skills.getD [])
    interests := some (u.interests.getD [])
    tech_stack := some (u.tech_stack.getD []) }

/-- C8: scoring never fails on absent fields, and a missing
skills/interests/tech_stack key is treated exactly as the empty
collection: filling every absent key with `[]` leaves the composite
fallback score unchanged. -/
theorem fallback_score_missing_fields (u1 u2 : UserProfile) :
    calculate_match_score_fallback u1 u2 =
      calculate_match_score_fallback (fill_profile_fields u1) (fill_profile_fields u2) :=
  rfl

/-- C2 (amended): the composite fallback score is the weighted sum
`0.4 × skills-overlap + 0.4 × interests-overlap + 0.2 × tech-overlap`
with no bio term, and these weights sum to 1. -/
theorem fallback_score_formula (u1 u2 : UserProfile) :
    calculate_match_score_fallback u1 u2 =
      0.4 * setOverlap_spec (u1.skills.getD []).toFinset (u2.skills.getD []).toFinset +
      0.4 * setOverlap_spec (u1.interests.getD []).toFinset (u2.interests.getD []).toFinset +
      0.2 * setOverlap_spec (u1.tech_stack.getD []).toFinset (u2.tech_stack.getD []).toFinset ∧
    (0.4 : ℚ) + 0.4 + 0.2 = 1 := by
  constructor
  · unfold calculate_match_score_fallback
    rw [jaccard_eq_setOverlap, jaccard_eq_setOverlap, jaccard_eq_setOverlap]
  · norm_num

/-- C2 counterexample: on a profile with one skill, one interest, one
tech-stack item and an empty bio, the code's score is `1` while the
claimed weighting `0.4/0.3/0.2/0.1` gives `0.9` (the bio term is pinned to
`0` by the spec for empty bios, so the choice of bio measure is
irrelevant). -/
theorem fallback_score_formula_cex :
    calculate_match_score_fallback uX uX ≠ composite_score_spec (fun _ _ => 0) uX uX := by
  norm_num [calculate_match_score_fallback, composite_score_spec, setOverlap_spec,
    calculate_jaccard_similarity, uX]

/-- C5: `save_matches` fully replaces the stored match set of `uid`: the
rows for `uid` afterwards are exactly the new matches (in order), and the
rows of every other user are unchanged. -/
theorem save_matches_replaces (table : List MatchRow) (uid : Nat)
    (ms : List MatchResult) :
    ((save_matches table uid ms).filter fun r => r.user_id = uid) =
      ms.map (match_row uid) ∧
    ∀ v, ¬ v = uid →
      ((save_matches table uid ms).filter fun r => r.user_id = v) =
        table.filter fun r => r.user_id = v := by
  constructor
  · unfold save_matches
    rw [List.filter_append]
    have h1 : ((table.filter fun r => ¬ r.user_id = uid).filter
        fun r => r.user_id = uid) = [] := by
      induction table with
      | nil => rfl
      | cons r t ih => by_cases h : r.user_id = uid <;> simp [h, ih]
    have h2 : ((ms.map (match_row uid)).filter fun r => r.user_id = uid) =
        ms.map (match_row uid) := by
      induction ms with
      | nil => rfl
      | cons m t ih => simp [match_row, ih]
    rw [h1, h2, List.nil_append]
  · intro v hv
    unfold save_matches
    rw [List.filter_append]
    have h2 : ((ms.map (match_row uid)).filter fun r => r.user_id = v) = [] := by
      induction ms with
      | nil => rfl
      | cons m t ih => simp [match_row, ih, Ne.symm hv]
    have h1 : ((table.filter fun r => ¬ r.user_id = uid).filter
        fun r => r.user_id = v) = table.filter fun r => r.user_id = v := by
      rw [List.filter_filter]
      apply List.filter_congr
      intro a _
      by_cases h : a.user_id = v
      · have hne : ¬ a.user_id = uid := by rw [h]; exact hv
        simp [h, hne, hv]
      · simp [h]
    rw [h1, h2, List.append_nil]

/-- Witness for C5 on a concrete two-row table: the rows of user 5 are
replaced and the row of user 7 survives untouched. -/
theorem save_matches_replaces_witness :
    ((save_matches [⟨5, 9, 1⟩, ⟨7, 3, 0⟩] 5 [fallback_match p0 c0]).filter
        fun r => r.user_id = 5) = [fallback_match p0 c0].map (match_row 5) ∧
    ((save_matches [⟨5, 9, 1⟩, ⟨7, 3, 0⟩] 5 [fallback_match p0 c0]).filter
        fun r => r.user_id = 7) =
      ([⟨5, 9, 1⟩, ⟨7, 3, 0⟩] : List MatchRow).filter fun r => r.user_id = 7 :=
  ⟨(save_matches_replaces [⟨5, 9, 1⟩, ⟨7, 3, 0⟩] 5 [fallback_match p0 c0]).1,
   (save_matches_replaces [⟨5, 9, 1⟩, ⟨7, 3, 0⟩] 5 [fallback_match p0 c0]).2 7
     (by decide)⟩

theorem fallback_score_nonneg (u1 u2 : UserProfile) :
    0 ≤ calculate_match_score_fallback u1 u2 := by
  unfold calculate_match_score_fallback
  have h1 := jaccard_nonneg (u1.skills.getD []) (u2.skills.getD [])
  have h2 := jaccard_nonneg (u1.interests.getD []) (u2.interests.getD [])
  have h3 := jaccard_nonneg (u1.tech_stack.getD []) (u2.tech_stack.getD [])
  dsimp only
  linarith

theorem fallback_score_le_one (u1 u2 : UserProfile) :
    calculate_match_score_fallback u1 u2 ≤ 1 := by
  unfold calculate_match_score_fallback
  have h1 := jaccard_le_one (u1.skills.getD []) (u2.skills.getD [])
  have h2 := jaccard_le_one (u1.interests.getD []) (u2.interests.getD [])
  have h3 := jaccard_le_one (u1.tech_stack.getD []) (u2.tech_stack.getD [])
  dsimp only
  linarith

/-- Any element of the (truncated) fallback ranking is the fallback match
of some pool member. -/
theorem mem_fallback_take (u : UserProfile) (pool : List UserProfile) (n : Nat)
    (m : MatchResult) (hm : m ∈ (fallback_sorted u pool).take n) :
    ∃ c ∈ pool, m = fallback_match u c := by
  have h1 : m ∈ fallback_sorted u pool := List.mem_of_mem_take hm
  unfold fallback_sorted at h1
  have h2 : m ∈ pool.map (fallback_match u) := List.mem_mergeSort.mp h1
  obtain ⟨c, hc, rfl⟩ := List.mem_map.mp h2
  exact ⟨c, hc, rfl⟩

/-- Any element of the Gemini-path result is the Gemini match of some pool
member, built from some entry of the parsed rankings. -/
theorem mem_find_matches_with_gemini (pool : List UserProfile) (n : Nat)
    (rk : List AIRankItem) (m : MatchResult)
    (hm : m ∈ find_matches_with_gemini pool n rk) :
    ∃ c ∈ pool, ∃ it ∈ rk, m = gemini_match c it := by
  unfold find_matches_with_gemini at hm
  obtain ⟨it, hit, hsome⟩ := List.mem_filterMap.mp hm
  by_cases hcond : 0 ≤ it.idx ∧ it.idx < (pool.length : Int)
  · rw [if_pos hcond] at hsome
    obtain ⟨c, hget, rfl⟩ := Option.map_eq_some'.mp hsome
    exact ⟨c, List.get?_mem hget, it, List.mem_of_mem_take hit, rfl⟩
  · rw [if_neg hcond] at hsome
    exact Option.noConfusion hsome

/-- C3 (amended): every composite fallback score lies in [0,1], and every
match returned by `find_matches` has a score in [0,1] provided each score
in a parsed AI response lies in the promised 0-100 range (the code divides
by 100 without clamping, so the restriction on the response is needed). -/
theorem find_matches_scores_in_unit (u : UserProfile) (pool : List UserProfile)
    (n : Nat) (oc : GeminiOutcome)
    (hoc : ∀ rk, oc = GeminiOutcome.response rk →
      ∀ it ∈ rk, 0 ≤ it.score ∧ it.score ≤ 100) :
    (∀ u1 u2 : UserProfile, 0 ≤ calculate_match_score_fallback u1 u2 ∧
        calculate_match_score_fallback u1 u2 ≤ 1) ∧
    ∀ m ∈ find_matches u pool n oc, 0 ≤ m.score ∧ m.score ≤ 1 := by
  refine ⟨fun u1 u2 => ⟨fallback_score_nonneg u1 u2, fallback_score_le_one u1 u2⟩, ?_⟩
  intro m hm
  cases oc with
  | noModel =>
    simp only [find_matches] at hm
    obtain ⟨c, _, rfl⟩ := mem_fallback_take u pool n m hm
    exact ⟨fallback_score_nonneg u c, fallback_score_le_one u c⟩
  | failure =>
    simp only [find_matches] at hm
    obtain ⟨c, _, rfl⟩ := mem_fallback_take u pool n m hm
    exact ⟨fallback_score_nonneg u c, fallback_score_le_one u c⟩
  | response rk =>
    simp only [find_matches] at hm
    by_cases hemp : find_matches_with_gemini pool n rk = []
    · rw [if_pos hemp] at hm
      obtain ⟨c, _, rfl⟩ := mem_fallback_take u pool n m hm
      exact ⟨fallback_score_nonneg u c, fallback_score_le_one u c⟩
    · rw [if_neg hemp] at hm
      obtain ⟨c, _, it, hit, rfl⟩ := mem_find_matches_with_gemini pool n rk m hm
      obtain ⟨hs0, hs100⟩ := hoc rk rfl it hit
      constructor
      · show 0 ≤ it.score / 100
        positivity
      · show it.score / 100 ≤ 1
        rw [div_le_one (by norm_num)]
        linarith

/-- Witness for C3 at a concrete failure outcome: the returned fallback
match for the one-candidate pool has score in [0,1]. -/
theorem find_matches_scores_in_unit_witness :
    0 ≤ (fallback_match p0 c0).score ∧ (fallback_match p0 c0).score ≤ 1 :=
  (find_matches_scores_in_unit p0 [c0] 10 GeminiOutcome.failure
      (fun rk h => nomatch h)).2
    (fallback_match p0 c0) (by simp [find_matches, fallback_sorted])

/-- C3 counterexample: on the AI path a response score of 150 is normalised
to 3/2, so the returned match score exceeds 1 — the claim is false for
arbitrary AI responses. -/
theorem find_matches_scores_in_unit_cex :
    ¬ ∀ m ∈ find_matches p0 [c0] 1 (GeminiOutcome.response [⟨0, 150, "r"⟩]),
        0 ≤ m.score ∧ m.score ≤ 1 := by
  intro h
  have hmem : gemini_match c0 ⟨0, 150, "r"⟩ ∈
      find_matches p0 [c0] 1 (GeminiOutcome.response [⟨0, 150, "r"⟩]) := by
    simp [find_matches, find_matches_with_gemini, c0]
  have hle := (h _ hmem).2
  norm_num [gemini_match] at hle

/-- C4 (amended): `find_matches` returns at most `top_n` results on every
path, and the fallback path returns exactly `min top_n |pool|` results;
the AI path alone does not bound the result by `|pool|` (see the
counterexample with a repeated index). -/
theorem find_matches_length_le (u : UserProfile) (pool : List UserProfile)
    (n : Nat) (oc : GeminiOutcome) :
    (find_matches u pool n oc).length ≤ n ∧
    (find_matches u pool n GeminiOutcome.failure).length = min n pool.length := by
  have hfb : (find_matches u pool n GeminiOutcome.failure).length = min n pool.length := by
    simp [find_matches, fallback_sorted]
  refine ⟨?_, hfb⟩
  cases oc with
  | noModel =>
    simp only [find_matches, List.length_take]
    exact Nat.min_le_left n _
  | failure =>
    simp only [find_matches, List.length_take]
    exact Nat.min_le_left n _
  | response rk =>
    simp only [find_matches]
    split
    · rw [List.length_take]
      exact Nat.min_le_left n _
    · calc (find_matches_with_gemini pool n rk).length
          ≤ (rk.take n).length := List.length_filterMap_le _ _
        _ ≤ n := List.length_take_le n rk

/-- C4 counterexample: a pool of one candidate with an AI response that
lists index 0 twice yields two results, exceeding `min(topN, |pool|) = 1`. -/
theorem find_matches_length_le_cex :
    ¬ ((find_matches p0 [c0] 2
          (GeminiOutcome.response [⟨0, 90, "a"⟩, ⟨0, 80, "b"⟩])).length
        ≤ min 2 ([c0] : List UserProfile).length) := by
  have h2 : (find_matches p0 [c0] 2
      (GeminiOutcome.response [⟨0, 90, "a"⟩, ⟨0, 80, "b"⟩])).length = 2 := by
    simp [find_matches, find_matches_with_gemini, c0]
  rw [h2]
  norm_num

/-- C1 (amended): an out-of-range candidate index in the AI response causes
only that entry to be skipped, so every kept result is built from a pool
member and a response entry; only when no entry survives (the built list is
empty) does the ranker fall back to the similarity-scorer path, and a
non-empty partially-valid result is returned as-is. -/
theorem gemini_invalid_index_handling (u : UserProfile) (pool : List UserProfile)
    (n : Nat) (rk : List AIRankItem) :
    (∀ m ∈ find_matches_with_gemini pool n rk,
        ∃ c ∈ pool, ∃ it ∈ rk, m = gemini_match c it) ∧
    (find_matches_with_gemini pool n rk = [] →
      find_matches u pool n (GeminiOutcome.response rk) =
        (fallback_sorted u pool).take n) ∧
    (¬ find_matches_with_gemini pool n rk = [] →
      find_matches u pool n (GeminiOutcome.response rk) =
        find_matches_with_gemini pool n rk) := by
  refine ⟨fun m hm => mem_find_matches_with_gemini pool n rk m hm, ?_, ?_⟩
  · intro h
    simp only [find_matches]
    rw [if_pos h]
  · intro h
    simp only [find_matches]
    rw [if_neg h]

/-- Witness for C1 at a concrete partially-invalid response: index 5 is out
of range for a two-candidate pool, the result is non-empty, and it is
returned as-is. -/
theorem gemini_invalid_index_handling_witness :
    find_matches p0 [c0, c1] 10
        (GeminiOutcome.response [⟨0, 90, "a"⟩, ⟨5, 80, "b"⟩]) =
      find_matches_with_gemini [c0, c1] 10 [⟨0, 90, "a"⟩, ⟨5, 80, "b"⟩] :=
  (gemini_invalid_index_handling p0 [c0, c1] 10
      [⟨0, 90, "a"⟩, ⟨5, 80, "b"⟩]).2.2
    (by simp [find_matches_with_gemini, c0, c1])

/-- C1 counterexample: with pool [c0, c1] and response entries for index 0
(valid) and index 5 (out of range), the code keeps the valid-index portion:
the result is the single Gemini match for c0, not the two-element fallback
ranking the claim requires. -/
theorem gemini_invalid_index_handling_cex :
    find_matches p0 [c0, c1] 10
        (GeminiOutcome.response [⟨0, 90, "a"⟩, ⟨5, 80, "b"⟩]) ≠
      find_matches p0 [c0, c1] 10 GeminiOutcome.failure := by
  intro h
  have h1 : (find_matches p0 [c0, c1] 10
      (GeminiOutcome.response [⟨0, 90, "a"⟩, ⟨5, 80, "b"⟩])).length = 1 := by
    simp [find_matches, find_matches_with_gemini, c0, c1]
  have h2 : (find_matches p0 [c0, c1] 10 GeminiOutcome.failure).length = 2 := by
    simp [find_matches, fallback_sorted]
  rw [h] at h1
  rw [h1] at h2
  exact absurd h2 (by norm_num)

/-- C9 (amended): whenever the AI path yields an empty match list the
fallback path runs instead, and for a non-empty pool and `top_n ≥ 1` the
returned ranking is non-empty on every outcome; the non-emptiness
consequent fails for `top_n = 0` (see the counterexample). -/
theorem find_matches_fallback_on_empty (u : UserProfile) (pool : List UserProfile)
    (n : Nat) (oc : GeminiOutcome) :
    (∀ rk, oc = GeminiOutcome.response rk →
      find_matches_with_gemini pool n rk = [] →
        find_matches u pool n oc = (fallback_sorted u pool).take n) ∧
    (¬ pool = [] → 1 ≤ n → ¬ find_matches u pool n oc = []) := by
  constructor
  · rintro rk rfl h
    simp only [find_matches]
    rw [if_pos h]
  · intro hpool hn
    have hplen : 0 < pool.length := List.length_pos.mpr hpool
    have hne : ¬ (fallback_sorted u pool).take n = [] := by
      intro he
      have hlen : ((fallback_sorted u pool).take n).length = 0 := by rw [he]; rfl
      rw [List.length_take] at hlen
      simp only [fallback_sorted, List.length_mergeSort, List.length_map] at hlen
      omega
    cases oc with
    | noModel => simpa only [find_matches] using hne
    | failure => simpa only [find_matches] using hne
    | response rk =>
      simp only [find_matches]
      split
      · exact hne
      · rename_i hg
        exact hg

/-- Witness for C9: an empty parsed rankings array on a one-candidate pool
makes `find_matches` return the (non-empty) fallback ranking. -/
theorem find_matches_fallback_on_empty_witness :
    find_matches p0 [c0] 10 (GeminiOutcome.response []) =
        (fallback_sorted p0 [c0]).take 10 ∧
    ¬ find_matches p0 [c0] 10 (GeminiOutcome.response []) = [] :=
  ⟨(find_matches_fallback_on_empty p0 [c0] 10 (GeminiOutcome.response [])).1
      [] rfl rfl,
   (find_matches_fallback_on_empty p0 [c0] 10 (GeminiOutcome.response [])).2
      (by decide) (by norm_num)⟩

/-- C9 counterexample: with `top_n = 0` and a non-empty pool, an empty AI
ranking still leads to an empty final result (the fallback runs but is
truncated to nothing), so the caller does not always receive a non-empty
ranking. -/
theorem find_matches_fallback_on_empty_cex :
    find_matches p0 [c0] 0 (GeminiOutcome.response []) = [] ∧
      ¬ ([c0] : List UserProfile) = [] := by
  constructor
  · simp [find_matches, find_matches_with_gemini, fallback_sorted]
  · decide

theorem score_desc_trans (a b c : MatchResult) :
    score_desc a b → score_desc b c → score_desc a c := by
  simp only [score_desc, decide_eq_true_eq]
  exact fun h1 h2 => le_trans h2 h1

theorem score_desc_total (a b : MatchResult) :
    score_desc a b || score_desc b a := by
  simp only [score_desc]
  rcases le_total a.score b.score with h | h
  · simp [h]
  · simp [h]

/-- Two positions of a list, in order, form a sublist. -/
theorem pair_getElem_sublist {α : Type} (l : List α) (i j : Nat)
    (hi : i < l.length) (hj : j < l.length) (hij : i < j) :
    List.Sublist [l[i], l[j]] l := by
  induction l generalizing i j with
  | nil => simp at hj
  | cons a t ih =>
    cases i with
    | zero =>
      cases j with
      | zero => omega
      | succ k =>
        have hk : k < t.length := by simpa using hj
        have hs : List.Sublist [t[k]] t := List.singleton_sublist.mpr (List.getElem_mem hk)
        exact List.Sublist.cons₂ a hs
    | succ i' =>
      cases j with
      | zero => omega
      | succ k =>
        have hi' : i' < t.length := by simpa using hi
        have hk : k < t.length := by simpa using hj
        exact List.Sublist.cons a (ih i' k hi' hk (by omega))

/-- C6: the fallback sort is stable on score ties: two pool candidates with
equal composite scores keep their pool enumeration order in the sorted
fallback ranking (of which the returned ranking is the `top_n` prefix). -/
theorem fallback_sort_stable (u : UserProfile) (pool : List UserProfile)
    (top_n i j : Nat) (hi : i < pool.length) (hj : j < pool.length) (hij : i < j)
    (heq : (fallback_match u pool[i]).score = (fallback_match u pool[j]).score) :
    List.Sublist [fallback_match u pool[i], fallback_match u pool[j]]
      (fallback_sorted u pool) ∧
    find_matches u pool top_n GeminiOutcome.failure =
      (fallback_sorted u pool).take top_n := by
  constructor
  · have hi' : i < (pool.map (fallback_match u)).length := by simpa using hi
    have hj' : j < (pool.map (fallback_match u)).length := by simpa using hj
    have h := pair_getElem_sublist (pool.map (fallback_match u)) i j hi' hj' hij
    simp only [List.getElem_map] at h
    exact List.pair_sublist_mergeSort score_desc_trans score_desc_total
      (by simp [score_desc, heq]) h
  · rfl

/-- Witness for C6: candidates c0 and c1 tie (both score 0 against p0) and
appear in the stable ranking in pool order. -/
theorem fallback_sort_stable_witness :
    List.Sublist [fallback_match p0 c0, fallback_match p0 c1]
      (fallback_sorted p0 [c0, c1]) ∧
    find_matches p0 [c0, c1] 10 GeminiOutcome.failure =
      (fallback_sorted p0 [c0, c1]).take 10 :=
  fallback_sort_stable p0 [c0, c1] 10 0 1 (by decide) (by decide) (by decide)
    (by norm_num [fallback_match, calculate_match_score_fallback,
      calculate_jaccard_similarity, p0, c0, c1])
